import Mathlib

/-!
# Moon OCR Reader — verification of the dual-path recognition orchestrator

Shallow embedding of the core of the Moon OCR Reader application:
the Tesseract engine wrapper (`ocr-engine.js`, two revisions of which are
present in the repository), the Gemini adapter (`gemini-vision.js`), and the
dual-path orchestrator (`startOcr` / `refineSingleResult` in the main
application module).

External effects are modelled explicitly:
* the Tesseract recognizer, the Gemini vision read and the Gemini merge call
  are oracles (`Oracles`), each returning `Except`—`.error` stands for a
  rejected promise;
* the SHA-256 content digest (`getFileHash` in `image-utils.js`) is out of
  scope per the spec ("consumed as a black-box function producing … a content
  fingerprint") and is passed in as a function parameter, which makes it
  deterministic by construction;
* DOM updates are recorded as an ordered `Event` trace: emitting a cached
  result, emitting a provisional primary result, the in-place refinement
  update, and a cache write.

The single JavaScript thread runs each image's pipeline sequentially
(`onImageComplete` body followed by the `refineSingleResult` continuation),
so the model emits each miss image's events as one contiguous block, and the
blocks in the submission order of the miss list; cache-hit emissions happen
before `ocrEngine.recognizeBatch` is awaited and therefore precede every
miss event in every schedule, which the model's trace preserves.
-/

namespace MoonOcr

/-- Bounding box of a recognized line (`l.bbox` in `recognizeImage`). -/
structure BBox where
  x0 : Nat
  y0 : Nat
  x1 : Nat
  y1 : Nat
deriving DecidableEq

/-- One line record as built in `OcrEngine.recognizeImage`:
`{ text, confidence, bbox }`. Confidence values are opaque data that the
program only copies around, so they are embedded as `Nat`. -/
structure LineRec where
  text : String
  confidence : Nat
  bbox : BBox
deriving DecidableEq

/-- The value returned by `OcrEngine.recognizeImage`:
`{ text, confidence, lines, words, paragraphs, blocks }`. `words` and
`paragraphs` are the lengths of the corresponding Tesseract arrays; `blocks`
is opaque structural data. -/
structure RecResult where
  text : String
  confidence : Nat
  lines : List LineRec
  words : Nat
  paragraphs : Nat
  blocks : List String
deriving DecidableEq

/-- JavaScript `lang.includes('+')` (the argument is a single character, so
substring containment coincides with character containment). -/
def jsIncludesPlus (lang : String) : Bool :=
  lang.data.contains '+'

/-- `OcrEngine` constructor, both revisions:
`this.workerCount = navigator.hardwareConcurrency ?
Math.min(navigator.hardwareConcurrency, 4) : 2`. `0` stands for a falsy
`navigator.hardwareConcurrency`. -/
def OcrEngine.defaultWorkerCount (hardwareConcurrency : Nat) : Nat :=
  if hardwareConcurrency = 0 then 2 else min hardwareConcurrency 4

/-- Worker pool size computed in `initialize` of the `src/ocr-engine.js`
revision with the sequential `recognizeBatch`:
`lang.includes('+') ? 1 : Math.min(this.workerCount, 2)`. -/
def OcrEngine.initWorkerCountSeq (workerCount : Nat) (lang : String) : Nat :=
  if jsIncludesPlus lang then 1 else min workerCount 2

/-- Worker pool size computed in `initialize` of the engine revision with the
parallel `recognizeBatch` (`Promise.all`):
`lang.includes('+') ? Math.min(this.workerCount, 2) : Math.min(this.workerCount, 4)`. -/
def OcrEngine.initWorkerCountPar (workerCount : Nat) (lang : String) : Nat :=
  if jsIncludesPlus lang then min workerCount 2 else min workerCount 4

/-- One element of the `images` argument of `recognizeBatch`:
`{ file, id }`, with the file carrying a name and content bytes. -/
structure BatchJob where
  id : String
  name : String
  bytes : String
deriving DecidableEq

/-- One element of the list `recognizeBatch` resolves with. The success
branch spreads the whole recognition result; the catch branch builds only
`{ id, filename, text: '', confidence: 0, error: err.message }`, so the
structural fields are absent (`none`) there. -/
structure BatchOutcome where
  id : String
  filename : String
  text : String
  confidence : Nat
  lines : Option (List LineRec)
  words : Option Nat
  paragraphs : Option Nat
  blocks : Option (List String)
  error : Option String
deriving DecidableEq

/-- `OcrEngine.recognizeBatch` (parallel revision): every job is submitted,
each promise resolves to the success record or, via its own `.catch`, to the
failure record, and `Promise.all` returns them in submission order. The
per-job recognizer is the oracle `recognizeImage`. -/
def recognizeBatch (recognizeImage : BatchJob → Except String RecResult)
    (images : List BatchJob) : List BatchOutcome :=
  images.map fun j =>
    match recognizeImage j with
    | .ok r =>
        { id := j.id
          filename := j.name
          text := r.text
          confidence := r.confidence
          lines := some r.lines
          words := some r.words
          paragraphs := some r.paragraphs
          blocks := some r.blocks
          error := none }
    | .error e =>
        { id := j.id
          filename := j.name
          text := ""
          confidence := 0
          lines := none
          words := none
          paragraphs := none
          blocks := none
          error := some e }

/-- JavaScript whitespace test for the characters that occur in this model;
used to embed `String.prototype.trim`. -/
def jsWhitespace (c : Char) : Bool :=
  c = ' ' || c = '\t' || c = '\n' || c = '\r'

/-- JavaScript `s.trim()`. -/
def jsTrim (s : String) : String :=
  ⟨((s.data.dropWhile jsWhitespace).reverse.dropWhile jsWhitespace).reverse⟩

/-- An image of the current batch as held in `state.images`:
`{ id, file, url, name }` with the file content embedded as `bytes`
(the object URL plays no role in the orchestrator). -/
structure Image where
  id : String
  name : String
  bytes : String
deriving DecidableEq

/-- `aiStatus` values of a result entry: `'disabled' | 'pending' | 'done' | 'failed'`. -/
inductive AiStatus where
  | disabled
  | pending
  | done
  | failed
deriving DecidableEq

/-- A value stored in `resultCache`. The primary-only write stores
`{ text, confidence, lines, words, paragraphs, blocks }`; the dual-path write
additionally stores `ocrText`, `visionText`, `mergedText` and `aiStatus`, so
those four fields are optional (`none` = absent). -/
structure CacheEntry where
  text : String
  confidence : Nat
  lines : List LineRec
  words : Nat
  paragraphs : Nat
  blocks : List String
  ocrText : Option String := none
  visionText : Option String := none
  mergedText : Option String := none
  aiStatus : Option AiStatus := none
deriving DecidableEq

/-- An element of `state.results`. For entries built by `onImageComplete`,
`ocrText = some (primary text)` and `aiStatus = some (pending|disabled)`;
for entries rebuilt from an old-shape cache value those fields are `none`,
mirroring `undefined` after the spread `{ ...cached, id, filename }`. -/
structure ResultEntry where
  id : String
  filename : String
  text : String
  confidence : Nat
  lines : List LineRec
  words : Nat
  paragraphs : Nat
  blocks : List String
  error : Option String
  ocrText : Option String
  visionText : Option String
  mergedText : Option String
  aiStatus : Option AiStatus
deriving DecidableEq

/-- Observable steps of one batch, in program order:
`emitHit` = `appendSingleResult` of a cached entry, `emitPrimary` =
`appendSingleResult` inside `onImageComplete`, `refineUpdate` = the in-place
mutation of the entry to its terminal refinement status, `cacheWrite` =
`resultCache.set`. -/
inductive Event where
  | emitHit (id : String) (entry : ResultEntry)
  | emitPrimary (id : String) (entry : ResultEntry)
  | refineUpdate (id : String) (status : AiStatus)
  | cacheWrite (key : String) (entry : CacheEntry)
deriving DecidableEq

/-- `true` exactly on cache-hit emissions. -/
def isHitEvent : Event → Bool
  | Event.emitHit _ _ => true
  | _ => false

/-- `true` exactly on cache writes. -/
def isWriteEvent : Event → Bool
  | Event.cacheWrite _ _ => true
  | _ => false

/-- The external asynchronous collaborators of one batch, as oracles.
`.error` is a rejected promise. `primary` is `recognizeImage` for the resized
file of an image; `visionResp` and `mergeResp` are the raw Gemini response
texts of `geminiVisionRead` and `geminiMergeResults`. -/
structure Oracles where
  primary : Image → Except String RecResult
  visionResp : Image → Except String String
  mergeResp : String → String → String → Except String String

/-- `geminiVisionRead`: returns `response.text?.trim() || ''`, or rejects. -/
def geminiVisionRead (o : Oracles) (img : Image) : Except String String :=
  (o.visionResp img).map jsTrim

/-- The per-image vision promise as the orchestrator tracks it:
`geminiVisionRead(...).catch(err => '')` — rejections resolve to the empty
transcript. -/
def visionSettled (o : Oracles) (img : Image) : String :=
  match geminiVisionRead o img with
  | .ok t => t
  | .error _ => ""

/-- `geminiMergeResults`: returns `response.text?.trim() || ocrText`
(the empty merge response falls back to the primary transcript), or rejects. -/
def geminiMergeResults (o : Oracles) (ocrText visionText lang : String) :
    Except String String :=
  match o.mergeResp ocrText visionText lang with
  | .error e => .error e
  | .ok t => .ok (if jsTrim t = "" then ocrText else jsTrim t)

/-- The cache key built in `startOcr`:
`` `${hash}_${lang}_${useAI ? 'ai' : 'ocr'}` ``. -/
def cacheKey (hash lang : String) (useAI : Bool) : String :=
  hash ++ "_" ++ lang ++ "_" ++ (if useAI then "ai" else "ocr")

/-- `resultCache` lookup (`Map.prototype.get`), the cache embedded as an
association list keyed by the cache-key string. -/
def cacheGet (m : List (String × CacheEntry)) (k : String) : Option CacheEntry :=
  match m with
  | [] => none
  | (k', v) :: rest => if k' = k then some v else cacheGet rest k

/-- `resultCache.set` (`Map.prototype.set`): replaces the value under an
existing key, appends otherwise. -/
def cacheSet (m : List (String × CacheEntry)) (k : String) (v : CacheEntry) :
    List (String × CacheEntry) :=
  match m with
  | [] => [(k, v)]
  | (k', v') :: rest => if k' = k then (k, v) :: rest else (k', v') :: cacheSet rest k v

/-- The entry emitted for a cache hit: `{ ...cached, id: img.id, filename:
img.file.name }` — every cached field reproduced, the identity fields taken
from the current submission (`error` absent in the cached value). -/
def hitEntry (cached : CacheEntry) (img : Image) : ResultEntry :=
  { id := img.id
    filename := img.name
    text := cached.text
    confidence := cached.confidence
    lines := cached.lines
    words := cached.words
    paragraphs := cached.paragraphs
    blocks := cached.blocks
    error := none
    ocrText := cached.ocrText
    visionText := cached.visionText
    mergedText := cached.mergedText
    aiStatus := cached.aiStatus }

/-- Phase 2 of `startOcr`: walk `state.images` in order, compute each image's
fingerprint and cache key, and partition into `cachedResults` (already as
emitted entries) and `imagesToProcess` (paired with their cache key). Every
probe reads the batch-initial cache, since the loop finishes before any
processing starts. -/
def probe (resultCache : List (String × CacheEntry)) (getFileHash : String → String)
    (lang : String) (useAI : Bool) :
    List Image → List ResultEntry × List (Image × String)
  | [] => ([], [])
  | img :: rest =>
      let key := cacheKey (getFileHash img.bytes) lang useAI
      let pr := probe resultCache getFileHash lang useAI rest
      match cacheGet resultCache key with
      | some cached => (hitEntry cached img :: pr.1, pr.2)
      | none => (pr.1, (img, key) :: pr.2)

/-- The cache value written on the primary-only path
(`resultCache.set(imgMeta.cacheKey, { text, confidence, lines, words,
paragraphs, blocks })`). -/
def plainCacheValue (r : RecResult) : CacheEntry :=
  { text := r.text
    confidence := r.confidence
    lines := r.lines
    words := r.words
    paragraphs := r.paragraphs
    blocks := r.blocks }

/-- `refineSingleResult(resultEntry, visionPromise, lang, cacheKey)` with the
vision promise already settled to `visionText`. Mirrors the source branch for
branch: both transcripts non-empty → Gemini merge (a thrown merge is the
`catch`, leaving the primary text and marking `failed`); vision non-empty,
primary empty → adopt the vision text and mark `done` (no cache write);
otherwise → keep the primary text and mark `failed` (no cache write).
Returns the mutated entry and the events it produced. -/
def refineSingleResult (o : Oracles) (resultEntry : ResultEntry)
    (visionText : String) (lang : String) (cacheKeyArg : Option String) :
    ResultEntry × List Event :=
  let entry := { resultEntry with visionText := some visionText }
  if visionText ≠ "" ∧ entry.ocrText.getD "" ≠ "" then
    match geminiMergeResults o (entry.ocrText.getD "") visionText lang with
    | .ok mergedText =>
        let entry2 := { entry with
          mergedText := some mergedText
          text := mergedText
          aiStatus := some AiStatus.done }
        (entry2,
          Event.refineUpdate entry2.id AiStatus.done ::
            (match cacheKeyArg with
             | some k =>
                 [Event.cacheWrite k
                   { text := mergedText
                     confidence := entry2.confidence
                     lines := entry2.lines
                     words := entry2.words
                     paragraphs := entry2.paragraphs
                     blocks := entry2.blocks
                     ocrText := entry2.ocrText
                     visionText := some visionText
                     mergedText := some mergedText
                     aiStatus := some AiStatus.done }]
             | none => []))
    | .error _ =>
        ({ entry with aiStatus := some AiStatus.failed },
         [Event.refineUpdate entry.id AiStatus.failed])
  else if visionText ≠ "" ∧ entry.ocrText.getD "" = "" then
    let entry2 := { entry with
      text := visionText
      mergedText := some visionText
      aiStatus := some AiStatus.done }
    (entry2, [Event.refineUpdate entry2.id AiStatus.done])
  else
    ({ entry with aiStatus := some AiStatus.failed },
     [Event.refineUpdate entry.id AiStatus.failed])

/-- The body of `onImageComplete` for one cache-miss image, together with its
`refineSingleResult` continuation. A thrown primary recognition reaches
`onImageComplete` with `result = null`, and the `if (result)` guard then
skips entry creation entirely: no result entry and no events. On success the
provisional entry is built and emitted; in dual-path mode the tracked vision
promise is awaited and merged, otherwise the plain result is written to the
cache at once. -/
def processMiss (o : Oracles) (useAI : Bool) (lang : String)
    (img : Image) (key : String) : Option ResultEntry × List Event :=
  match o.primary img with
  | .error _ => (none, [])
  | .ok result =>
      let resultEntry : ResultEntry :=
        { id := img.id
          filename := img.name
          text := result.text
          confidence := result.confidence
          lines := result.lines
          words := result.words
          paragraphs := result.paragraphs
          blocks := result.blocks
          error := none
          ocrText := some result.text
          visionText := none
          mergedText := none
          aiStatus := some (if useAI then AiStatus.pending else AiStatus.disabled) }
      if useAI then
        let rf := refineSingleResult o resultEntry (visionSettled o img) lang (some key)
        (some rf.1, Event.emitPrimary img.id resultEntry :: rf.2)
      else
        (some resultEntry,
         [Event.emitPrimary img.id resultEntry,
          Event.cacheWrite key (plainCacheValue result)])

/-- All cache-miss pipelines of the batch. Each image's block of events is
contiguous (one asynchronous continuation runs sequentially); blocks are
concatenated in submission order, one sound representative of the
interleavings — no per-image or counting property depends on the order
between different images' blocks. -/
def processMisses (o : Oracles) (useAI : Bool) (lang : String) :
    List (Image × String) → List ResultEntry × List Event
  | [] => ([], [])
  | (img, key) :: rest =>
      let here := processMiss o useAI lang img key
      let further := processMisses o useAI lang rest
      (match here.1 with
       | some e => e :: further.1
       | none => further.1,
       here.2 ++ further.2)

/-- Replay the cache writes of an event trace onto the cache. -/
def applyEvents (m : List (String × CacheEntry)) : List Event → List (String × CacheEntry)
  | [] => m
  | Event.cacheWrite k v :: rest => applyEvents (cacheSet m k v) rest
  | _ :: rest => applyEvents m rest

/-- The application state the orchestrator touches: `state.images`,
`state.results`, `state.isProcessing`, `state.aiEnabled` and the module-level
`resultCache`. -/
structure AppState where
  images : List Image
  results : List ResultEntry
  isProcessing : Bool
  aiEnabled : Bool
  resultCache : List (String × CacheEntry)
deriving DecidableEq

/-- The non-guarded body of `startOcr`: results are reset, cached results are
emitted first, then every cache miss runs its pipeline; `finally` clears
`isProcessing`. Engine initialization is modelled as succeeding (its failure
aborts the whole batch and is no claim's subject). -/
def runBatch (o : Oracles) (getFileHash : String → String) (lang : String)
    (geminiAvailable : Bool) (st : AppState) : AppState × List Event :=
  let useAI := st.aiEnabled && geminiAvailable
  let pr := probe st.resultCache getFileHash lang useAI st.images
  let pm := processMisses o useAI lang pr.2
  ({ st with
      results := pr.1 ++ pm.1
      resultCache := applyEvents st.resultCache pm.2
      isProcessing := false },
   pr.1.map (fun e => Event.emitHit e.id e) ++ pm.2)

/-- `startOcr`: the re-entrancy guard
`if (state.images.length === 0 || state.isProcessing) return;`, then the
batch body. `lang` is the language-select value and `geminiAvailable` the
credential state read by `isGeminiAvailable()`. -/
def startOcr (o : Oracles) (getFileHash : String → String) (lang : String)
    (geminiAvailable : Bool) (st : AppState) : AppState × List Event :=
  if st.images.length = 0 || st.isProcessing then (st, [])
  else runBatch o getFileHash lang geminiAvailable st

/-! ## Concrete fixtures

Closed scenarios used by counterexamples and witnesses. The content digest is
instantiated with the identity function: the orchestrator observes the digest
only through equality of the resulting cache keys, and on these inputs any
deterministic digest (such as the SHA-256 of `getFileHash`) produces the same
equalities, hence the same run. -/

/-- Stand-in for the black-box content digest in concrete runs. -/
def idDigest : String → String := fun bytes => bytes

/-- A fresh application state holding one image, no results, not processing,
with the given AI toggle and cache. -/
def singleBatchState (img : Image) (ai : Bool) (cache : List (String × CacheEntry)) :
    AppState :=
  { images := [img], results := [], isProcessing := false, aiEnabled := ai,
    resultCache := cache }

/-- A successful primary recognition. -/
def sampleResult : RecResult :=
  { text := "ABC", confidence := 95, lines := [], words := 1, paragraphs := 1, blocks := [] }

/-- A primary recognition that found no text (empty transcript, not a throw). -/
def emptyResult : RecResult :=
  { text := "", confidence := 0, lines := [], words := 0, paragraphs := 0, blocks := [] }

def imgOne : Image := { id := "img-1", name := "one.png", bytes := "bytesA" }

/-- Same content bytes as `imgOne`, different id and name. -/
def imgTwo : Image := { id := "img-2", name := "two.png", bytes := "bytesA" }

def imgThree : Image := { id := "img-3", name := "three.png", bytes := "bytesB" }

/-- Every collaborator succeeds; the merge response concatenates its inputs. -/
def okOracle : Oracles :=
  { primary := fun _ => Except.ok sampleResult
    visionResp := fun _ => Except.ok "ABD"
    mergeResp := fun a b _ => Except.ok (a ++ b) }

/-- Primary succeeds, the vision read rejects (`RemoteError`). -/
def visionDownOracle : Oracles :=
  { primary := fun _ => Except.ok sampleResult
    visionResp := fun _ => Except.error "RemoteError"
    mergeResp := fun _ _ _ => Except.error "RemoteError" }

/-- Primary finds no text, the vision read succeeds. -/
def rescueOracle : Oracles :=
  { primary := fun _ => Except.ok emptyResult
    visionResp := fun _ => Except.ok "XYZ"
    mergeResp := fun _ _ _ => Except.ok "MERGED" }

/-- The primary recognition promise rejects. -/
def throwOracle : Oracles :=
  { primary := fun _ => Except.error "worker crashed"
    visionResp := fun _ => Except.ok ""
    mergeResp := fun _ _ _ => Except.error "unused" }

/-- Two distinct images carrying identical bytes, dual-path off. -/
def stDupBytes : AppState :=
  { images := [imgOne, imgTwo], results := [], isProcessing := false,
    aiEnabled := false, resultCache := [] }

/-- Two miss images with distinct bytes, dual-path on. -/
def stTwoMisses : AppState :=
  { images := [imgOne, imgThree], results := [], isProcessing := false,
    aiEnabled := true, resultCache := [] }

/-- A state whose guard is active: a batch is already in flight. -/
def busyState : AppState :=
  { images := [imgOne], results := [], isProcessing := true,
    aiEnabled := false, resultCache := [] }

/-- A cached value for the fixtures that need a prepopulated cache. -/
def cachedSample : CacheEntry :=
  { text := "CACHED", confidence := 88, lines := [], words := 2, paragraphs := 1,
    blocks := [] }

/-- One cache-hit image (`imgOne`, cached under its primary-only key) and one
miss image, dual-path off. -/
def hitMissState : AppState :=
  { images := [imgOne, imgThree], results := [], isProcessing := false,
    aiEnabled := false,
    resultCache := [(cacheKey "bytesA" "eng" false, cachedSample)] }

/-- The entry `startOcr` builds for `imgThree` under `okOracle` with
dual-path off (used to spell out the expected trace in witnesses). -/
def missEntryThree : ResultEntry :=
  { id := "img-3", filename := "three.png", text := "ABC", confidence := 95,
    lines := [], words := 1, paragraphs := 1, blocks := [], error := none,
    ocrText := some "ABC", visionText := none, mergedText := none,
    aiStatus := some AiStatus.disabled }

/-- First batch of the C4 counterexample: one image, dual-path on, vision
read rejecting, so refinement terminates `failed` and nothing is cached. -/
def run1C4 : AppState × List Event :=
  startOcr visionDownOracle idDigest "eng" true (singleBatchState imgOne true [])

/-- Second batch of the C4 counterexample: the same bytes, language and mode
resubmitted under a fresh image id against the first batch's final cache. -/
def stC4second : AppState :=
  { images := [imgTwo], results := [], isProcessing := false, aiEnabled := true,
    resultCache := run1C4.1.resultCache }

/-! ## Supporting lemmas -/

theorem cacheGet_set_self (m : List (String × CacheEntry)) (k : String) (v : CacheEntry) :
    cacheGet (cacheSet m k v) k = some v := by
  induction m with
  | nil => simp [cacheSet, cacheGet]
  | cons hd tl ih =>
      obtain ⟨k', v'⟩ := hd
      by_cases hk : k' = k
      · simp [cacheSet, cacheGet, hk]
      · simp [cacheSet, cacheGet, hk, ih]

theorem refineSingleResult_fst_id (o : Oracles) (e : ResultEntry) (v lang : String)
    (ck : Option String) : (refineSingleResult o e v lang ck).1.id = e.id := by
  unfold refineSingleResult
  dsimp only
  split
  · split <;> rfl
  · split <;> rfl

theorem refineSingleResult_events_char (o : Oracles) (e : ResultEntry) (v lang : String)
    (k : String) :
    (refineSingleResult o e v lang (some k)).2 =
        [Event.refineUpdate e.id AiStatus.failed] ∨
    (refineSingleResult o e v lang (some k)).2 =
        [Event.refineUpdate e.id AiStatus.done] ∨
    ∃ c, (refineSingleResult o e v lang (some k)).2 =
        [Event.refineUpdate e.id AiStatus.done, Event.cacheWrite k c] := by
  unfold refineSingleResult
  dsimp only
  split
  · split
    · exact Or.inr (Or.inr ⟨_, rfl⟩)
    · exact Or.inl rfl
  · split
    · exact Or.inr (Or.inl rfl)
    · exact Or.inl rfl

theorem refineSingleResult_events_not_hit (o : Oracles) (e : ResultEntry) (v lang : String)
    (ck : Option String) (ev : Event) (hmem : ev ∈ (refineSingleResult o e v lang ck).2) :
    isHitEvent ev = false := by
  unfold refineSingleResult at hmem
  dsimp only at hmem
  split at hmem
  · split at hmem
    · rw [List.mem_cons] at hmem
      rcases hmem with rfl | hmem
      · rfl
      · split at hmem
        · rw [List.mem_singleton] at hmem; subst hmem; rfl
        · simp at hmem
    · rw [List.mem_singleton] at hmem; subst hmem; rfl
  · split at hmem
    · rw [List.mem_singleton] at hmem; subst hmem; rfl
    · rw [List.mem_singleton] at hmem; subst hmem; rfl

theorem processMiss_ok (o : Oracles) (useAI : Bool) (lang : String) (img : Image)
    (key : String) (r : RecResult) (hok : o.primary img = Except.ok r) :
    ∃ e evs, processMiss o useAI lang img key = (some e, evs) ∧ e.id = img.id := by
  unfold processMiss
  rw [hok]
  dsimp only
  split
  · exact ⟨_, _, rfl, refineSingleResult_fst_id ..⟩
  · exact ⟨_, _, rfl, rfl⟩

theorem processMiss_events_not_hit (o : Oracles) (useAI : Bool) (lang : String)
    (img : Image) (key : String) (ev : Event)
    (hmem : ev ∈ (processMiss o useAI lang img key).2) : isHitEvent ev = false := by
  unfold processMiss at hmem
  split at hmem
  · simp at hmem
  · dsimp only at hmem
    split at hmem
    · rw [List.mem_cons] at hmem
      rcases hmem with rfl | hmem
      · rfl
      · exact refineSingleResult_events_not_hit _ _ _ _ _ _ hmem
    · rw [List.mem_cons, List.mem_singleton] at hmem
      rcases hmem with rfl | rfl <;> rfl

theorem processMisses_events_not_hit (o : Oracles) (useAI : Bool) (lang : String)
    (ms : List (Image × String)) (ev : Event)
    (hmem : ev ∈ (processMisses o useAI lang ms).2) : isHitEvent ev = false := by
  induction ms with
  | nil => simp [processMisses] at hmem
  | cons m rest ih =>
      obtain ⟨img, key⟩ := m
      unfold processMisses at hmem
      dsimp only at hmem
      rw [List.mem_append] at hmem
      rcases hmem with hmem | hmem
      · exact processMiss_events_not_hit _ _ _ _ _ _ hmem
      · exact ih hmem

theorem processMisses_entry_mem (o : Oracles) (useAI : Bool) (lang : String)
    (ms : List (Image × String)) (img : Image) (key : String) (e : ResultEntry)
    (evs : List Event) (hmem : (img, key) ∈ ms)
    (hpm : processMiss o useAI lang img key = (some e, evs)) :
    e ∈ (processMisses o useAI lang ms).1 := by
  induction ms with
  | nil => simp at hmem
  | cons m rest ih =>
      rw [List.mem_cons] at hmem
      rcases hmem with rfl | hmem
      · unfold processMisses
        rw [hpm]
        exact List.mem_cons_self ..
      · obtain ⟨img', key'⟩ := m
        unfold processMisses
        dsimp only
        split
        · exact List.mem_cons_of_mem _ (ih hmem)
        · exact ih hmem

theorem processMisses_ids (o : Oracles) (useAI : Bool) (lang : String)
    (ms : List (Image × String))
    (hok : ∀ m ∈ ms, ∃ r, o.primary m.1 = Except.ok r) :
    (processMisses o useAI lang ms).1.map ResultEntry.id = ms.map (fun m => m.1.id) := by
  induction ms with
  | nil => simp [processMisses]
  | cons m rest ih =>
      obtain ⟨img, key⟩ := m
      obtain ⟨r, hr⟩ := hok (img, key) (List.mem_cons_self ..)
      obtain ⟨e, evs, hpm, hid⟩ := processMiss_ok o useAI lang img key r hr
      unfold processMisses
      rw [hpm]
      dsimp only
      rw [List.map_cons, hid, ih fun m hm => hok m (List.mem_cons_of_mem _ hm)]
      rfl

theorem probe_ids_perm (c : List (String × CacheEntry)) (h : String → String)
    (lang : String) (u : Bool) (imgs : List Image) :
    List.Perm
      ((probe c h lang u imgs).1.map ResultEntry.id ++
        (probe c h lang u imgs).2.map (fun m => m.1.id))
      (imgs.map Image.id) := by
  induction imgs with
  | nil => simp [probe]
  | cons img rest ih =>
      unfold probe
      dsimp only
      split
      · simpa [hitEntry] using List.Perm.cons img.id ih
      · exact List.Perm.trans List.perm_middle (List.Perm.cons img.id ih)

theorem probe_miss_mem (c : List (String × CacheEntry)) (h : String → String)
    (lang : String) (u : Bool) (imgs : List Image) (img : Image)
    (hmem : img ∈ imgs)
    (hmiss : cacheGet c (cacheKey (h img.bytes) lang u) = none) :
    (img, cacheKey (h img.bytes) lang u) ∈ (probe c h lang u imgs).2 := by
  induction imgs with
  | nil => simp at hmem
  | cons img' rest ih =>
      rw [List.mem_cons] at hmem
      rcases hmem with rfl | hmem
      · unfold probe
        dsimp only
        rw [hmiss]
        exact List.mem_cons_self ..
      · unfold probe
        dsimp only
        split
        · exact ih hmem
        · exact List.mem_cons_of_mem _ (ih hmem)

theorem probe_miss_img_mem (c : List (String × CacheEntry)) (h : String → String)
    (lang : String) (u : Bool) (imgs : List Image) (m : Image × String)
    (hmem : m ∈ (probe c h lang u imgs).2) : m.1 ∈ imgs := by
  induction imgs with
  | nil => simp [probe] at hmem
  | cons img rest ih =>
      unfold probe at hmem
      dsimp only at hmem
      split at hmem
      · exact List.mem_cons_of_mem _ (ih hmem)
      · rw [List.mem_cons] at hmem
        rcases hmem with rfl | hmem
        · exact List.mem_cons_self ..
        · exact List.mem_cons_of_mem _ (ih hmem)

theorem probe_hit_char (c : List (String × CacheEntry)) (h : String → String)
    (lang : String) (u : Bool) (imgs : List Image) (e : ResultEntry)
    (hmem : e ∈ (probe c h lang u imgs).1) :
    ∃ img ∈ imgs, ∃ ce,
      cacheGet c (cacheKey (h img.bytes) lang u) = some ce ∧ e = hitEntry ce img := by
  induction imgs with
  | nil => simp [probe] at hmem
  | cons img rest ih =>
      unfold probe at hmem
      dsimp only at hmem
      split at hmem
      · rw [List.mem_cons] at hmem
        rcases hmem with rfl | hmem
        · exact ⟨img, List.mem_cons_self .., _, by assumption, rfl⟩
        · obtain ⟨img', hi, ce, hg, he⟩ := ih hmem
          exact ⟨img', List.mem_cons_of_mem _ hi, ce, hg, he⟩
      · obtain ⟨img', hi, ce, hg, he⟩ := ih hmem
        exact ⟨img', List.mem_cons_of_mem _ hi, ce, hg, he⟩

theorem startOcr_run (o : Oracles) (getFileHash : String → String) (lang : String)
    (g : Bool) (st : AppState) (hproc : st.isProcessing = false)
    (hne : st.images ≠ []) :
    startOcr o getFileHash lang g st = runBatch o getFileHash lang g st := by
  unfold startOcr
  rw [if_neg]
  simp [hproc, List.length_eq_zero, hne]

theorem events_hits_first (A B : List Event)
    (hA : ∀ x ∈ A, isHitEvent x = true) (hB : ∀ x ∈ B, isHitEvent x = false)
    (i j : Nat) (e1 e2 : Event)
    (h1 : (A ++ B)[i]? = some e1) (h2 : (A ++ B)[j]? = some e2)
    (he1 : isHitEvent e1 = true) (he2 : isHitEvent e2 = false) : i < j := by
  have hi : i < A.length := by
    by_contra hc
    push_neg at hc
    rw [List.getElem?_append_right hc] at h1
    rw [hB e1 (List.getElem?_mem h1)] at he1
    exact Bool.false_ne_true he1
  have hj : A.length ≤ j := by
    by_contra hc
    push_neg at hc
    rw [List.getElem?_append_left hc] at h2
    rw [hA e2 (List.getElem?_mem h2)] at he2
    simp at he2
  omega

theorem processMiss_adoptVision (o : Oracles) (lang : String) (img : Image)
    (key : String) (r : RecResult) (v : String)
    (hok : o.primary img = Except.ok r) (ht : r.text = "")
    (hv : visionSettled o img = v) (hvne : v ≠ "") :
    ∃ e evs, processMiss o true lang img key = (some e, evs) ∧
      e.id = img.id ∧ e.text = v ∧ e.mergedText = some v ∧
      e.aiStatus = some AiStatus.done := by
  unfold processMiss
  rw [hok]
  dsimp only
  rw [if_pos rfl]
  unfold refineSingleResult
  dsimp only
  rw [hv, ht]
  simp only [Option.getD_some]
  rw [if_neg (by simp), if_pos ⟨hvne, trivial⟩]
  exact ⟨_, _, rfl, rfl, rfl, rfl, rfl⟩

theorem processMiss_keepPrimary (o : Oracles) (lang : String) (img : Image)
    (key : String) (r : RecResult)
    (hok : o.primary img = Except.ok r)
    (hv : visionSettled o img = "") :
    ∃ e evs, processMiss o true lang img key = (some e, evs) ∧
      e.id = img.id ∧ e.text = r.text ∧ e.ocrText = some r.text ∧
      e.aiStatus = some AiStatus.failed := by
  unfold processMiss
  rw [hok]
  dsimp only
  rw [if_pos rfl]
  unfold refineSingleResult
  dsimp only
  rw [hv]
  rw [if_neg (by simp), if_neg (by simp)]
  exact ⟨_, _, rfl, rfl, rfl, rfl, rfl⟩

/-! ## Claims -/

/-- C10: invoking `startOcr` while a batch is in flight (`isProcessing`) or
with an empty image list is a no-op — the state (results, cache, flags) is
returned unchanged and no event is emitted, so at most one batch runs at a
time. -/
theorem C10_reentrancy_guard_noop (o : Oracles) (getFileHash : String → String)
    (lang : String) (g : Bool) (st : AppState)
    (hguard : st.isProcessing = true ∨ st.images = []) :
    startOcr o getFileHash lang g st = (st, []) := by
  rcases hguard with hp | he
  · simp [startOcr, hp]
  · simp [startOcr, he]

/-- Witness for C10: a concrete busy state is left untouched. -/
theorem C10_reentrancy_guard_noop_witness :
    startOcr okOracle idDigest "eng" true busyState = (busyState, []) :=
  C10_reentrancy_guard_noop okOracle idDigest "eng" true busyState (Or.inl rfl)

/-- C5 (amended): the pool size never exceeds 4 in either engine revision,
and the revisions differ on multi-language profiles — the sequential-batch
revision forces 1 worker, while the parallel-batch revision allocates
`min(workerCount, 2)` workers (and `min(workerCount, 4)` for single-language
profiles), `workerCount` being `hardwareConcurrency` capped at 4 (2 when
unavailable). -/
theorem C5_pool_size (hardwareConcurrency : Nat) (lang : String) :
    OcrEngine.initWorkerCountSeq (OcrEngine.defaultWorkerCount hardwareConcurrency) lang ≤ 4 ∧
    (jsIncludesPlus lang = true →
      OcrEngine.initWorkerCountSeq (OcrEngine.defaultWorkerCount hardwareConcurrency) lang = 1) ∧
    OcrEngine.initWorkerCountPar (OcrEngine.defaultWorkerCount hardwareConcurrency) lang ≤ 4 ∧
    (jsIncludesPlus lang = true →
      OcrEngine.initWorkerCountPar (OcrEngine.defaultWorkerCount hardwareConcurrency) lang =
        min (OcrEngine.defaultWorkerCount hardwareConcurrency) 2) := by
  unfold OcrEngine.initWorkerCountSeq OcrEngine.initWorkerCountPar OcrEngine.defaultWorkerCount
  refine ⟨?_, ?_, ?_, ?_⟩ <;> split_ifs <;> simp_all

/-- Counterexample to C5 as stated: in the parallel-batch engine revision,
with 4 hardware threads and the multi-language profile `eng+kor`, the pool
size is `min(4, 2) = 2`, not 1. -/
theorem C5_counterexample :
    OcrEngine.initWorkerCountPar (OcrEngine.defaultWorkerCount 4) "eng+kor" ≠ 1 := by
  decide

/-- C7: `recognizeBatch` isolates per-job failures: it always yields one
outcome per job, correlated by job id in submission order, and a job whose
recognition rejects is reported with empty transcript, zero confidence and
the error description, while every other job still gets its own outcome. -/
theorem C7_batch_failure_isolation (recognizeImage : BatchJob → Except String RecResult)
    (images : List BatchJob) :
    (recognizeBatch recognizeImage images).length = images.length ∧
    (recognizeBatch recognizeImage images).map BatchOutcome.id = images.map BatchJob.id ∧
    ∀ (i : Nat) (j : BatchJob) (e : String),
      images[i]? = some j → recognizeImage j = Except.error e →
      ∃ out, (recognizeBatch recognizeImage images)[i]? = some out ∧
        out.id = j.id ∧ out.filename = j.name ∧ out.text = "" ∧
        out.confidence = 0 ∧ out.error = some e := by
  refine ⟨by simp [recognizeBatch], ?_, ?_⟩
  · unfold recognizeBatch
    rw [List.map_map]
    apply List.map_congr_left
    intro a _
    simp only [Function.comp_apply]
    cases h : recognizeImage a <;> rfl
  · intro i j e hi he
    refine ⟨{ id := j.id
              filename := j.name
              text := ""
              confidence := 0
              lines := none
              words := none
              paragraphs := none
              blocks := none
              error := some e }, ?_, rfl, rfl, rfl, rfl, rfl⟩
    unfold recognizeBatch
    rw [List.getElem?_map, hi]
    simp [he]

/-- C2 (amended): per cache-miss image, at most one cache write happens, and
only after that image's entry reaches a terminal refinement status: either
the primary recognition rejected (no entry, no events), or dual-path is off
and the plain result is written right after the entry is emitted already
terminal (`disabled`), or dual-path is on and the pipeline ends with a single
terminal `refineUpdate` and no write (the `failed` and adopt-vision `done`
outcomes), or it ends `done` via merge followed by exactly one write.
Distinct images with identical fingerprints each run this pipeline, so a key
can be written more than once per batch. -/
theorem C2_write_after_terminal (o : Oracles) (useAI : Bool) (lang : String)
    (img : Image) (key : String) :
    ((processMiss o useAI lang img key).2 = []) ∨
    (∃ r e, o.primary img = Except.ok r ∧ useAI = false ∧
      (processMiss o useAI lang img key).2 =
        [Event.emitPrimary img.id e, Event.cacheWrite key (plainCacheValue r)] ∧
      e.aiStatus = some AiStatus.disabled) ∨
    (∃ e s, useAI = true ∧
      (processMiss o useAI lang img key).2 =
        [Event.emitPrimary img.id e, Event.refineUpdate img.id s] ∧
      (s = AiStatus.done ∨ s = AiStatus.failed)) ∨
    (∃ e c, useAI = true ∧
      (processMiss o useAI lang img key).2 =
        [Event.emitPrimary img.id e, Event.refineUpdate img.id AiStatus.done,
         Event.cacheWrite key c]) := by
  unfold processMiss
  cases hp : o.primary img with
  | error err => exact Or.inl rfl
  | ok r =>
      dsimp only
      cases useAI with
      | false => exact Or.inr (Or.inl ⟨r, _, rfl, rfl, rfl, rfl⟩)
      | true =>
          unfold refineSingleResult
          dsimp only
          by_cases h1 : visionSettled o img ≠ "" ∧ (some r.text).getD "" ≠ ""
          · simp only [if_pos h1]
            cases hm : geminiMergeResults o ((some r.text).getD "") (visionSettled o img) lang with
            | ok mergedText =>
                exact Or.inr (Or.inr (Or.inr ⟨_, _, by trivial, rfl⟩))
            | error err =>
                exact Or.inr (Or.inr (Or.inl ⟨_, AiStatus.failed, by trivial, rfl, Or.inr rfl⟩))
          · simp only [if_neg h1]
            by_cases h2 : visionSettled o img ≠ "" ∧ (some r.text).getD "" = ""
            · simp only [if_pos h2]
              exact Or.inr (Or.inr (Or.inl ⟨_, AiStatus.done, by trivial, rfl, Or.inl rfl⟩))
            · simp only [if_neg h2]
              exact Or.inr (Or.inr (Or.inl ⟨_, AiStatus.failed, by trivial, rfl, Or.inr rfl⟩))

theorem startOcr_single_hit (o : Oracles) (getFileHash : String → String)
    (lang : String) (ai g : Bool) (img : Image) (k : String) (ce : CacheEntry)
    (hk : cacheKey (getFileHash img.bytes) lang (ai && g) = k) :
    startOcr o getFileHash lang g (singleBatchState img ai [(k, ce)]) =
      ({ images := [img]
         results := [hitEntry ce img]
         isProcessing := false
         aiEnabled := ai
         resultCache := [(k, ce)] },
       [Event.emitHit img.id (hitEntry ce img)]) := by
  unfold startOcr singleBatchState
  rw [if_neg (by simp)]
  unfold runBatch
  dsimp only
  rw [show probe [(k, ce)] getFileHash lang (ai && g) [img] = ([hitEntry ce img], [])
    from by simp [probe, hk, cacheGet]]
  rfl

theorem startOcr_single_write (o : Oracles) (getFileHash : String → String)
    (lang : String) (ai g : Bool) (img : Image) (k : String) (c : CacheEntry)
    (hw : Event.cacheWrite k c ∈
      (startOcr o getFileHash lang g (singleBatchState img ai [])).2) :
    ∃ e, (startOcr o getFileHash lang g (singleBatchState img ai [])).1.results = [e] ∧
      (startOcr o getFileHash lang g (singleBatchState img ai [])).1.resultCache =
        [(cacheKey (getFileHash img.bytes) lang (ai && g), c)] ∧
      c.text = e.text := by
  rw [startOcr_run _ _ _ _ _ rfl (by simp [singleBatchState])] at hw ⊢
  unfold runBatch singleBatchState at hw ⊢
  dsimp only at hw ⊢
  rw [show probe [] getFileHash lang (ai && g) [img] =
      ([], [(img, cacheKey (getFileHash img.bytes) lang (ai && g))])
    from by simp [probe, cacheGet]] at hw ⊢
  unfold processMisses at hw ⊢
  dsimp only at hw ⊢
  unfold processMiss at hw ⊢
  cases hp : o.primary img with
  | error err =>
      rw [hp] at hw
      simp [processMisses] at hw
  | ok r =>
      rw [hp] at hw
      dsimp only at hw ⊢
      cases hAI : (ai && g) with
      | false =>
          rw [hAI] at hw
          rw [if_neg (by simp)] at hw ⊢
          simp [processMisses] at hw
          obtain ⟨hk, hc⟩ := hw
          subst hk
          subst hc
          exact ⟨_, rfl, by simp [processMisses, applyEvents, cacheSet], rfl⟩
      | true =>
          rw [hAI] at hw
          rw [if_pos rfl] at hw ⊢
          unfold refineSingleResult at hw ⊢
          dsimp only at hw ⊢
          by_cases h1 : visionSettled o img ≠ "" ∧ (some r.text).getD "" ≠ ""
          · rw [if_pos h1] at hw ⊢
            cases hm : geminiMergeResults o ((some r.text).getD "")
                (visionSettled o img) lang with
            | ok m =>
                rw [hm] at hw
                dsimp only at hw ⊢
                simp [processMisses] at hw
                obtain ⟨hk, hc⟩ := hw
                subst hk
                subst hc
                exact ⟨_, rfl, by simp [processMisses, applyEvents, cacheSet], rfl⟩
            | error err =>
                rw [hm] at hw
                simp [processMisses] at hw
          · rw [if_neg h1] at hw
            by_cases h2 : visionSettled o img ≠ "" ∧ (some r.text).getD "" = ""
            · rw [if_pos h2] at hw
              simp [processMisses] at hw
            · rw [if_neg h2] at hw
              simp [processMisses] at hw

/-- C3: when the primary transcript is empty (recognition found no text) and
the secondary transcript is non-empty, the image's entry adopts the secondary
transcript as both the current and the merged transcript and ends with
refinement status `done`. -/
theorem C3_adopt_secondary (o : Oracles) (getFileHash : String → String)
    (lang : String) (st : AppState) (img : Image) (r : RecResult) (v : String)
    (hproc : st.isProcessing = false)
    (hai : st.aiEnabled = true)
    (hmem : img ∈ st.images)
    (hmiss : cacheGet st.resultCache (cacheKey (getFileHash img.bytes) lang true) = none)
    (hok : o.primary img = Except.ok r)
    (ht : r.text = "")
    (hv : visionSettled o img = v)
    (hvne : v ≠ "") :
    ∃ e ∈ (startOcr o getFileHash lang true st).1.results,
      e.id = img.id ∧ e.text = v ∧ e.mergedText = some v ∧
      e.aiStatus = some AiStatus.done := by
  have hne : st.images ≠ [] := by
    intro h
    rw [h] at hmem
    exact (List.not_mem_nil img) hmem
  rw [startOcr_run o getFileHash lang true st hproc hne]
  unfold runBatch
  dsimp only
  simp only [hai, Bool.and_self]
  obtain ⟨e, evs, hpm, hid, htx, hmg, hst⟩ :=
    processMiss_adoptVision o lang img (cacheKey (getFileHash img.bytes) lang true)
      r v hok ht hv hvne
  have hmm : (img, cacheKey (getFileHash img.bytes) lang true) ∈
      (probe st.resultCache getFileHash lang true st.images).2 :=
    probe_miss_mem _ _ _ _ _ _ hmem hmiss
  exact ⟨e, List.mem_append_right _
    (processMisses_entry_mem _ _ _ _ _ _ _ _ hmm hpm), hid, htx, hmg, hst⟩

/-- C6: when the primary transcript is non-empty and the secondary path
failed or produced an empty transcript, the image's entry keeps the primary
transcript unchanged (both as current text and preserved `ocrText`) and ends
with refinement status `failed`. -/
theorem C6_keep_primary (o : Oracles) (getFileHash : String → String)
    (lang : String) (st : AppState) (img : Image) (r : RecResult)
    (hproc : st.isProcessing = false)
    (hai : st.aiEnabled = true)
    (hmem : img ∈ st.images)
    (hmiss : cacheGet st.resultCache (cacheKey (getFileHash img.bytes) lang true) = none)
    (hok : o.primary img = Except.ok r)
    (ht : r.text ≠ "")
    (hv : visionSettled o img = "") :
    ∃ e ∈ (startOcr o getFileHash lang true st).1.results,
      e.id = img.id ∧ e.text = r.text ∧ e.ocrText = some r.text ∧
      e.aiStatus = some AiStatus.failed := by
  have hne : st.images ≠ [] := by
    intro h
    rw [h] at hmem
    exact (List.not_mem_nil img) hmem
  rw [startOcr_run o getFileHash lang true st hproc hne]
  unfold runBatch
  dsimp only
  simp only [hai, Bool.and_self]
  obtain ⟨e, evs, hpm, hid, htx, hocr, hst⟩ :=
    processMiss_keepPrimary o lang img (cacheKey (getFileHash img.bytes) lang true)
      r hok hv
  have hmm : (img, cacheKey (getFileHash img.bytes) lang true) ∈
      (probe st.resultCache getFileHash lang true st.images).2 :=
    probe_miss_mem _ _ _ _ _ _ hmem hmiss
  exact ⟨e, List.mem_append_right _
    (processMisses_entry_mem _ _ _ _ _ _ _ _ hmm hpm), hid, htx, hocr, hst⟩

/-- C9: every cache-hit emission carries an entry whose id and filename are
those of the image in the current submission, with every other field
reproduced unchanged from the cached value. -/
theorem C9_hit_relabel (o : Oracles) (getFileHash : String → String)
    (lang : String) (g : Bool) (st : AppState) (iid : String) (e : ResultEntry)
    (hmem : Event.emitHit iid e ∈ (startOcr o getFileHash lang g st).2) :
    ∃ img ∈ st.images, ∃ ce,
      cacheGet st.resultCache
          (cacheKey (getFileHash img.bytes) lang (st.aiEnabled && g)) = some ce ∧
      iid = img.id ∧ e.id = img.id ∧ e.filename = img.name ∧
      e.text = ce.text ∧ e.confidence = ce.confidence ∧ e.lines = ce.lines ∧
      e.words = ce.words ∧ e.paragraphs = ce.paragraphs ∧ e.blocks = ce.blocks ∧
      e.error = none ∧ e.ocrText = ce.ocrText ∧ e.visionText = ce.visionText ∧
      e.mergedText = ce.mergedText ∧ e.aiStatus = ce.aiStatus := by
  unfold startOcr at hmem
  split at hmem
  · simp at hmem
  · unfold runBatch at hmem
    dsimp only at hmem
    rw [List.mem_append] at hmem
    rcases hmem with hmem | hmem
    · rw [List.mem_map] at hmem
      obtain ⟨x, hx, hev⟩ := hmem
      injection hev with h1 h2
      subst h2
      obtain ⟨img, himg, ce, hget, hx_eq⟩ := probe_hit_char _ _ _ _ _ _ hx
      subst hx_eq
      exact ⟨img, himg, ce, hget, h1.symm, rfl, rfl, rfl, rfl, rfl, rfl, rfl,
        rfl, rfl, rfl, rfl, rfl, rfl⟩
    · have hnot := processMisses_events_not_hit _ _ _ _ _ hmem
      simp [isHitEvent] at hnot

/-- C8: within one batch, every cache-hit emission happens strictly before
every event of any cache-miss pipeline — in particular before every miss
image's terminal result. -/
theorem C8_hits_emitted_first (o : Oracles) (getFileHash : String → String)
    (lang : String) (g : Bool) (st : AppState) (i j : Nat) (e1 e2 : Event)
    (h1 : (startOcr o getFileHash lang g st).2[i]? = some e1)
    (h2 : (startOcr o getFileHash lang g st).2[j]? = some e2)
    (he1 : isHitEvent e1 = true) (he2 : isHitEvent e2 = false) : i < j := by
  unfold startOcr at h1 h2
  split at h1
  · simp at h1
  · rename_i hcond
    rw [if_neg hcond] at h2
    unfold runBatch at h1 h2
    dsimp only at h1 h2
    refine events_hits_first _ _ ?_ ?_ i j e1 e2 h1 h2 he1 he2
    · intro x hx
      rw [List.mem_map] at hx
      obtain ⟨y, _, rfl⟩ := hx
      rfl
    · exact fun x hx => processMisses_events_not_hit _ _ _ _ _ hx

/-- C1 (amended): whenever no primary recognition promise rejects, the batch
produces exactly one result entry per input image id — the multiset of
result ids is a permutation of the multiset of submitted image ids. Images
whose primary recognition rejects are silently dropped from the results (see
the counterexample), which is the one deviation from the claim as stated. -/
theorem C1_one_entry_per_image (o : Oracles) (getFileHash : String → String)
    (lang : String) (g : Bool) (st : AppState)
    (hproc : st.isProcessing = false) (hne : st.images ≠ [])
    (hok : ∀ img ∈ st.images, ∃ r, o.primary img = Except.ok r) :
    List.Perm ((startOcr o getFileHash lang g st).1.results.map ResultEntry.id)
      (st.images.map Image.id) := by
  rw [startOcr_run o getFileHash lang g st hproc hne]
  unfold runBatch
  dsimp only
  rw [List.map_append,
    processMisses_ids _ _ _ _ fun m hm => hok m.1 (probe_miss_img_mem _ _ _ _ _ _ hm)]
  exact probe_ids_perm ..

/-- C4 (amended): whenever the first batch actually wrote the cache for an
image (which happens exactly when its entry terminated `disabled` or `done`
via merge, see C2), resubmitting the same bytes, language and mode in a
fresh batch is a cache hit: the second batch emits exactly one fast-path
result whose transcript is identical to the first batch's terminal
transcript. When the first batch's refinement ended `failed` (or adopted the
vision text over an empty primary), nothing was cached and the second
submission is a miss (see the counterexample). -/
theorem C4_cache_roundtrip (o : Oracles) (getFileHash : String → String)
    (lang : String) (ai g : Bool) (img1 img2 : Image) (k : String) (c : CacheEntry)
    (hbytes : img2.bytes = img1.bytes)
    (hw : Event.cacheWrite k c ∈
      (startOcr o getFileHash lang g (singleBatchState img1 ai [])).2) :
    ∃ e1 e2,
      (startOcr o getFileHash lang g (singleBatchState img1 ai [])).1.results = [e1] ∧
      (startOcr o getFileHash lang g (singleBatchState img2 ai
          (startOcr o getFileHash lang g (singleBatchState img1 ai [])).1.resultCache)).2 =
        [Event.emitHit img2.id e2] ∧
      (startOcr o getFileHash lang g (singleBatchState img2 ai
          (startOcr o getFileHash lang g (singleBatchState img1 ai [])).1.resultCache)).1.results =
        [e2] ∧
      e2.text = e1.text := by
  obtain ⟨e1, hres, hcache, htext⟩ :=
    startOcr_single_write o getFileHash lang ai g img1 k c hw
  have hk2 : cacheKey (getFileHash img2.bytes) lang (ai && g) =
      cacheKey (getFileHash img1.bytes) lang (ai && g) := by rw [hbytes]
  have hrun2 := startOcr_single_hit o getFileHash lang ai g img2
    (cacheKey (getFileHash img1.bytes) lang (ai && g)) c hk2
  refine ⟨e1, hitEntry c img2, hres, ?_, ?_, htext⟩
  · rw [hcache, hrun2]
  · rw [hcache, hrun2]

/-- Counterexample to C4 as stated: the same bytes, language and mode
resubmitted in a second batch after a first batch whose vision read rejected
(terminal status `failed`, nothing cached) is not a cache hit — the second
batch emits no fast-path result. -/
theorem C4_counterexample :
    (startOcr visionDownOracle idDigest "eng" true stC4second).2.countP isHitEvent = 0 ∧
    run1C4.1.results.map ResultEntry.aiStatus = [some AiStatus.failed] := by
  constructor
  · decide
  · decide

/-- Counterexample to C1 as stated: a one-image batch whose primary
recognition rejects ends with zero result entries, not one. -/
theorem C1_counterexample :
    (startOcr throwOracle idDigest "eng" false
        (singleBatchState imgOne false [])).1.results.length ≠
      (singleBatchState imgOne false []).images.length := by
  decide

/-- Counterexample to C2 as stated: a batch holding two images with
identical bytes (identical fingerprint), dual-path off, performs two cache
writes for the same (fingerprint, language, mode) key — not at most one. -/
theorem C2_counterexample :
    ¬ ((startOcr okOracle idDigest "eng" false stDupBytes).2.countP
        (fun ev => match ev with
          | Event.cacheWrite k _ => k == "bytesA_eng_ocr"
          | _ => false) ≤ 1) := by
  decide

/-- Witness for C1 (amended): a concrete two-image batch with both primary
recognitions succeeding yields result ids that are a permutation of the
submitted image ids. -/
theorem C1_one_entry_per_image_witness :
    List.Perm
      ((startOcr okOracle idDigest "eng" true stTwoMisses).1.results.map ResultEntry.id)
      (stTwoMisses.images.map Image.id) :=
  C1_one_entry_per_image okOracle idDigest "eng" true stTwoMisses rfl (by decide)
    fun _ _ => ⟨sampleResult, rfl⟩

/-- Witness for C3: a concrete image with empty primary transcript and
secondary transcript `XYZ` ends with current and merged transcript `XYZ` and
status `done`. -/
theorem C3_adopt_secondary_witness :
    ∃ e ∈ (startOcr rescueOracle idDigest "eng" true
        (singleBatchState imgOne true [])).1.results,
      e.id = imgOne.id ∧ e.text = "XYZ" ∧ e.mergedText = some "XYZ" ∧
      e.aiStatus = some AiStatus.done :=
  C3_adopt_secondary rescueOracle idDigest "eng" (singleBatchState imgOne true [])
    imgOne emptyResult "XYZ" rfl rfl (by decide) rfl rfl rfl rfl (by decide)

/-- Witness for C4 (amended): a concrete primary-only batch writes the cache,
and resubmitting the same bytes yields exactly one fast-path result with the
identical transcript. -/
theorem C4_cache_roundtrip_witness :
    ∃ e1 e2,
      (startOcr okOracle idDigest "eng" false (singleBatchState imgOne false [])).1.results =
        [e1] ∧
      (startOcr okOracle idDigest "eng" false (singleBatchState imgTwo false
          (startOcr okOracle idDigest "eng" false
            (singleBatchState imgOne false [])).1.resultCache)).2 =
        [Event.emitHit imgTwo.id e2] ∧
      (startOcr okOracle idDigest "eng" false (singleBatchState imgTwo false
          (startOcr okOracle idDigest "eng" false
            (singleBatchState imgOne false [])).1.resultCache)).1.results =
        [e2] ∧
      e2.text = e1.text :=
  C4_cache_roundtrip okOracle idDigest "eng" false false imgOne imgTwo
    "bytesA_eng_ocr" (plainCacheValue sampleResult) rfl (by decide)

/-- Witness for C6: a concrete image with primary transcript `ABC` and a
rejecting vision read keeps `ABC` and ends with status `failed`. -/
theorem C6_keep_primary_witness :
    ∃ e ∈ (startOcr visionDownOracle idDigest "eng" true
        (singleBatchState imgOne true [])).1.results,
      e.id = imgOne.id ∧ e.text = sampleResult.text ∧
      e.ocrText = some sampleResult.text ∧ e.aiStatus = some AiStatus.failed :=
  C6_keep_primary visionDownOracle idDigest "eng" (singleBatchState imgOne true [])
    imgOne sampleResult rfl rfl (by decide) rfl rfl (by decide) rfl

/-- Witness for C8: in a concrete batch with one cache hit and one miss, the
hit emission (index 0) precedes the miss emission (index 1). -/
theorem C8_hits_emitted_first_witness :
    (startOcr okOracle idDigest "eng" false hitMissState).2[1]? =
      some (Event.emitPrimary imgThree.id missEntryThree) ∧ (0 : Nat) < 1 :=
  ⟨by decide,
   C8_hits_emitted_first okOracle idDigest "eng" false hitMissState 0 1
     (Event.emitHit imgOne.id (hitEntry cachedSample imgOne))
     (Event.emitPrimary imgThree.id missEntryThree)
     (by decide) (by decide) rfl rfl⟩

/-- Witness for C9: the concrete hit emission of `hitMissState` carries the
current submission's id and filename over the cached fields. -/
theorem C9_hit_relabel_witness :
    ∃ img ∈ hitMissState.images, ∃ ce,
      cacheGet hitMissState.resultCache
          (cacheKey (idDigest img.bytes) "eng" (hitMissState.aiEnabled && false)) =
        some ce ∧
      imgOne.id = img.id ∧
      (hitEntry cachedSample imgOne).id = img.id ∧
      (hitEntry cachedSample imgOne).filename = img.name ∧
      (hitEntry cachedSample imgOne).text = ce.text ∧
      (hitEntry cachedSample imgOne).confidence = ce.confidence ∧
      (hitEntry cachedSample imgOne).lines = ce.lines ∧
      (hitEntry cachedSample imgOne).words = ce.words ∧
      (hitEntry cachedSample imgOne).paragraphs = ce.paragraphs ∧
      (hitEntry cachedSample imgOne).blocks = ce.blocks ∧
      (hitEntry cachedSample imgOne).error = none ∧
      (hitEntry cachedSample imgOne).ocrText = ce.ocrText ∧
      (hitEntry cachedSample imgOne).visionText = ce.visionText ∧
      (hitEntry cachedSample imgOne).mergedText = ce.mergedText ∧
      (hitEntry cachedSample imgOne).aiStatus = ce.aiStatus :=
  C9_hit_relabel okOracle idDigest "eng" false hitMissState imgOne.id
    (hitEntry cachedSample imgOne) (by decide)

end MoonOcr
